import Mathlib

/-!
# Bytom: key-vault request handlers and genesis assembly

A shallow embedding of `blockchain/hsm.go` (the pseudo-HSM request handlers of
`BlockchainReactor`) and `config/genesis.go` (the genesis transaction and block).

Conventions of the embedding:

* a Go `error` value is an `Option Err` (`none` is `nil`);
* a Go `[]byte` that may be `nil` is an `Option Bytes` (`none` is the nil slice); a
  signature produced by `chainkd` is a byte string, `Bytes`;
* a Go function returning `(v, err)` returns the pair, as in Go;
* `*txbuilder.Template` values are pointers; what `txbuilder.Sign` does to the
  pointed-to template (and to anything else) is a transition of an explicit world
  state `σ`;
* packages that are imported by the two files but are not part of them
  (`txbuilder`, `chainkd`, `httperror`, `pseudohsm`, `bc`, `legacy`, `state`,
  `consensus`) are parameters, gathered in structures of functions;
* logging is not modelled; `log.Panicf` is, as a failure result.
-/

namespace Bytom

/-! ## Data model of `blockchain/hsm.go` -/

/-- Byte strings. -/
abbrev Bytes := List Nat

/-- The `error` values the handlers distinguish: the four sentinel errors of package
`pseudohsm` that `hsm.go` names, and every other error. -/
inductive Err where
  | ErrDuplicateKeyAlias
  | ErrInvalidAfter
  | ErrTooManyAliasesToList
  | ErrNoKey
  | other (code : Nat)
  deriving DecidableEq, Repr

/-- The type `chainkd.XPub`. -/
structure XPubKey where
  data : Bytes
  deriving DecidableEq, Repr

/-- The type `chainkd.XPrv`. -/
structure XPrvKey where
  data : Bytes
  deriving DecidableEq, Repr

/-- The type `pseudohsm.XPub`: a vault entry as it is listed. -/
structure PseudoXPub where
  Alias : String
  XPub : XPubKey
  File : String
  deriving DecidableEq, Repr

/-- The type `httperror.Info`. -/
structure Info where
  HTTPStatus : Nat
  ChainCode : String
  Message : String
  deriving DecidableEq, Repr

/-- The body `errorFormatter.Format` produces for an error. -/
structure Response where
  Info : Info
  Detail : String
  deriving DecidableEq, Repr

/-- A `context.Context`: `context.Background()` or the context of a request. -/
inductive Context where
  | background
  | request (id : Nat)
  deriving DecidableEq, Repr

/-- A `*txbuilder.Template`. -/
abbrev TemplatePtr := Nat

/-- The signing callback type of `txbuilder.Sign`:
`func(ctx, xpub, path, data, password) ([]byte, error)`. -/
abbrev SignFn := Context → XPubKey → List Bytes → Bytes → String → Option Bytes × Option Err

/-- The vault `a.hsm` as the handlers use it. -/
structure HSM where
  /-- The method `XSign(xpub, path, msg, auth) ([]byte, error)`. -/
  XSign : XPubKey → List Bytes → Bytes → String → Option Bytes × Option Err
  /-- The method `ListKeys(after, limit) ([]*XPub, string, error)`. -/
  ListKeys : String → Int → List PseudoXPub × String × Option Err

/-- The collaborators of `pseudohsmSignTemplates` outside `hsm.go`, over a world state `σ`. -/
structure Collab (σ : Type) where
  /-- The function `txbuilder.Sign(ctx, tpl, xpubs, auth, signFn) error`, which signs the
  template in place. -/
  TxSign : Context → TemplatePtr → List XPubKey → String → SignFn → σ → Option Err × σ
  /-- The method `errorFormatter.Format(err)`. -/
  Format : Err → Response
  /-- The method `chainkd.XPrv.XPub()`. -/
  XPubOf : XPrvKey → XPubKey
  /-- The method `chainkd.XPrv.Derive(path)`. -/
  Derive : XPrvKey → List Bytes → XPrvKey
  /-- Modelled from the spec: the method `chainkd.XPrv.Sign(msg)` (package `chainkd`, which is
  not among the sources). Signing a digest with a private extended key yields a signature,
  a byte string; it has no failure, and the soft skip is a signal of the vault only, so the
  result is never the nil slice. -/
  XPrvSign : XPrvKey → Bytes → Bytes

/-- The request body of `pseudohsmSignTemplates`. -/
structure SignRequest where
  Auth : String
  Txs : List TemplatePtr
  XPub : XPubKey
  XPrv : XPrvKey
  deriving DecidableEq, Repr

/-- An element of the `[]interface{}` that `pseudohsmSignTemplates` returns. -/
inductive RespItem where
  | nil
  | template (tx : TemplatePtr)
  | info (body : Response)
  deriving DecidableEq, Repr

/-! ## The handlers of `blockchain/hsm.go` -/

/-- The method `pseudohsmSignTemplate` (hsm.go:89-95). -/
def pseudohsmSignTemplate (hsm : HSM) : SignFn :=
  fun _ctx xpub path data password =>
    let r := hsm.XSign xpub path data password
    if r.2 = some Err.ErrNoKey then (none, none) else (r.1, r.2)

/-- The function literal passed to `txbuilder.Sign` when `x.Auth == ""` (hsm.go:69-72). -/
def inlineSignFn {σ : Type} (E : Collab σ) (xprv : XPrvKey) : SignFn :=
  fun _ctx _xpub path data _password =>
    let derived := E.Derive xprv path
    (some (E.XPrvSign derived data), none)

/-- One iteration of the loop of `pseudohsmSignTemplates`, up to the assignment of `err`
(hsm.go:68-75). -/
def signOne {σ : Type} (E : Collab σ) (hsm : HSM) (ctx : Context) (x : SignRequest)
    (tx : TemplatePtr) (s : σ) : Option Err × σ :=
  if x.Auth = "" then
    E.TxSign Context.background tx [E.XPubOf x.XPrv] "" (inlineSignFn E x.XPrv) s
  else
    E.TxSign ctx tx [x.XPub] x.Auth (pseudohsmSignTemplate hsm) s

/-- The loop `for _, tx := range x.Txs` of `pseudohsmSignTemplates` (hsm.go:67-84), from the
templates still to visit, the current `resp` and the current world state. -/
def signTemplatesLoop {σ : Type} (E : Collab σ) (hsm : HSM) (ctx : Context) (x : SignRequest) :
    List TemplatePtr → List RespItem → σ → List RespItem × σ
  | [], resp, s => (resp, s)
  | tx :: rest, resp, s =>
    match signOne E hsm ctx x tx s with
    | (some err, s1) =>
      let info := E.Format err
      signTemplatesLoop E hsm ctx x rest (resp ++ [RespItem.info info]) s1
    | (none, s1) =>
      signTemplatesLoop E hsm ctx x rest (resp ++ [RespItem.template tx]) s1

/-- The method `pseudohsmSignTemplates` (hsm.go:59-87): `resp` starts as
`make([]interface{}, len(x.Txs))`, a slice of `len(x.Txs)` nil entries. -/
def pseudohsmSignTemplates {σ : Type} (E : Collab σ) (hsm : HSM) (ctx : Context)
    (x : SignRequest) (s : σ) : List RespItem × σ :=
  signTemplatesLoop E hsm ctx x x.Txs (List.replicate x.Txs.length RespItem.nil) s

/-- The fields of the type `requestQuery` that `pseudohsmListKeys` reads or writes. -/
structure requestQuery where
  PageSize : Int
  After : String
  deriving DecidableEq, Repr

/-- The type `page`. -/
structure page where
  Items : List PseudoXPub
  LastPage : Bool
  Next : requestQuery
  deriving DecidableEq, Repr

/-- The constant `defGenericPageSize`, which hsm.go:30 records as 100. -/
def defGenericPageSize : Int := 100

/-- The method `pseudohsmListKeys` (hsm.go:27-50). On an error of the vault the page returned
is the zero value `page{}`. -/
def pseudohsmListKeys (hsm : HSM) (query : requestQuery) : page × Option Err :=
  let limit := if query.PageSize = 0 then defGenericPageSize else query.PageSize
  match hsm.ListKeys query.After limit with
  | (_, _, some err) => (⟨[], false, ⟨0, ""⟩⟩, some err)
  | (xpubs, after, none) =>
    let items := xpubs.foldl (fun items xpub => items ++ [xpub]) []
    let query := { query with After := after }
    (⟨items, decide ((xpubs.length : Int) < limit), query⟩, none)

/-! ## Data model of `config/genesis.go` -/

/-- The type `bc.Hash`. -/
structure Hash where
  bytes : Bytes
  deriving DecidableEq, Repr

/-- The type `bc.AssetID`. -/
structure AssetID where
  bytes : Bytes
  deriving DecidableEq, Repr

/-- The type `bc.AssetAmount`. -/
structure AssetAmount where
  AssetId : AssetID
  Amount : Nat
  deriving DecidableEq, Repr

/-- The type `legacy.OutputCommitment`. -/
structure OutputCommitment where
  AssetAmount : AssetAmount
  VMVersion : Nat
  ControlProgram : Bytes
  deriving DecidableEq, Repr

/-- The type `legacy.TxOutput`. -/
structure TxOutput where
  AssetVersion : Nat
  OutputCommitment : OutputCommitment
  deriving DecidableEq, Repr

/-- The type `legacy.TxInput`; the genesis transaction has none. -/
structure TxInput where
  AssetVersion : Nat
  deriving DecidableEq, Repr

/-- The type `legacy.TxData`. -/
structure TxData where
  Version : Nat
  SerializedSize : Nat
  Inputs : List TxInput
  Outputs : List TxOutput
  MinTime : Nat
  MaxTime : Nat
  deriving DecidableEq, Repr

/-- The type `bc.Tx`, the mapped form of a transaction. -/
structure BcTx where
  entries : Bytes
  deriving DecidableEq, Repr

/-- The type `legacy.Tx`: the transaction data together with its mapped form. -/
structure LegacyTx where
  TxData : TxData
  Tx : BcTx
  deriving DecidableEq, Repr

/-- The type `legacy.BlockCommitment`. -/
structure BlockCommitment where
  TransactionsMerkleRoot : Hash
  AssetsMerkleRoot : Hash
  deriving DecidableEq, Repr

/-- The type `legacy.BlockHeader`. -/
structure BlockHeader where
  Version : Nat
  Height : Nat
  Seed : Hash
  TimestampMS : Nat
  BlockCommitment : BlockCommitment
  Nonce : Nat
  Bits : Nat
  deriving DecidableEq, Repr

/-- The type `legacy.Block`. -/
structure Block where
  BlockHeader : BlockHeader
  Transactions : List LegacyTx
  deriving DecidableEq, Repr

/-- The type `state.Snapshot`. -/
structure Snapshot where
  tree : Bytes
  deriving DecidableEq, Repr

/-- The collaborators of `config/genesis.go` in packages `consensus`, `bc`, `legacy` and
`state`. -/
structure Chain where
  /-- The constant `consensus.BTMAssetID`. -/
  BTMAssetID : AssetID
  /-- The function `legacy.NewTx(data)`. -/
  NewTx : TxData → LegacyTx
  /-- The function `bc.MerkleRoot(txs) (Hash, error)`. -/
  MerkleRoot : List BcTx → Hash × Option Err
  /-- The function `state.Empty()`. -/
  Empty : Snapshot
  /-- The method `snap.ApplyTx(tx) error`, which updates the snapshot in place. -/
  ApplyTx : Snapshot → BcTx → Snapshot × Option Err
  /-- The expression `snap.Tree.RootHash()`. -/
  RootHash : Snapshot → Hash
  /-- The function `bc.NewHash(b32)`. -/
  NewHash : Bytes → Hash
  /-- The method `Hash()` of a block, the hash of its header. -/
  HeaderHash : BlockHeader → Hash
  /-- The function `consensus.CheckProofOfWork(hash, bits)`. -/
  CheckProofOfWork : Hash → Nat → Bool

/-! ## The functions of `config/genesis.go` -/

/-- The literal `txData` of `GenerateGenesisTx` (genesis.go:14-33). -/
def genesisTxData (C : Chain) : TxData where
  Version := 1
  SerializedSize := 63
  Inputs := []
  Outputs := [
    { AssetVersion := 1
      OutputCommitment :=
        { AssetAmount := { AssetId := C.BTMAssetID, Amount := 1470000000000000000 }
          VMVersion := 1
          ControlProgram := [81] } }]
  MinTime := 0
  MaxTime := 1511318565142

/-- The function `GenerateGenesisTx` (genesis.go:13-36). -/
def GenerateGenesisTx (C : Chain) : LegacyTx :=
  C.NewTx (genesisTxData C)

/-- The assignment `genesisBlock.Nonce = n`. -/
def Block.setNonce (b : Block) (n : Nat) : Block :=
  { b with BlockHeader := { b.BlockHeader with Nonce := n } }

/-- The loop `for i := uint64(0); i <= 10000000000000; i++` of `GenerateGenesisBlock`
(genesis.go:66-73), from the value `i` of the counter and the current block. The second
component counts the evaluations of `CheckProofOfWork`, starting from `attempts`. -/
def nonceLoop (C : Chain) (i : Nat) (genesisBlock : Block) (attempts : Nat) : Block × Nat :=
  if h : i ≤ 10000000000000 then
    let genesisBlock := genesisBlock.setNonce i
    let hash := C.HeaderHash genesisBlock.BlockHeader
    if C.CheckProofOfWork hash genesisBlock.BlockHeader.Bits then
      (genesisBlock, attempts + 1)
    else
      nonceLoop C ((i + 1) % 18446744073709551616) genesisBlock (attempts + 1)
  else
    (genesisBlock, attempts)
termination_by 10000000000001 - i
decreasing_by omega

/-- The block `GenerateGenesisBlock` builds before the nonce loop (genesis.go:40-64);
`log.Panicf` is the failure `Except.error`. -/
def genesisTemplate (C : Chain) : Except String Block :=
  let genesisCoinbaseTx := GenerateGenesisTx C
  match C.MerkleRoot [genesisCoinbaseTx.Tx] with
  | (_, some _) => Except.error "Fatal create merkelRoot"
  | (merkleRoot, none) =>
    match C.ApplyTx C.Empty genesisCoinbaseTx.Tx with
    | (_, some _) => Except.error "Fatal ApplyTx"
    | (snap, none) =>
      Except.ok
        { BlockHeader :=
            { Version := 1
              Height := 1
              Seed := C.NewHash (List.replicate 32 0)
              TimestampMS := 1511318565142
              BlockCommitment :=
                { TransactionsMerkleRoot := merkleRoot
                  AssetsMerkleRoot := C.RootHash snap }
              Nonce := 0
              Bits := 2161727821138738707 }
          Transactions := [genesisCoinbaseTx] }

/-- The function `GenerateGenesisBlock` (genesis.go:39-77). -/
def GenerateGenesisBlock (C : Chain) : Except String Block :=
  match genesisTemplate C with
  | Except.error e => Except.error e
  | Except.ok genesisBlock => Except.ok (nonceLoop C 0 genesisBlock 0).1

/-- Whether the block `b` with its nonce set to `n` passes `CheckProofOfWork` under its
bits. -/
def sealedAt (C : Chain) (b : Block) (n : Nat) : Bool :=
  C.CheckProofOfWork (C.HeaderHash (b.setNonce n).BlockHeader) (b.setNonce n).BlockHeader.Bits

/-- Collaborators for concrete runs of the genesis functions: the header hash is the nonce
and the proof-of-work predicate is `pow`. -/
def sampleChain (pow : Nat → Bool) : Chain where
  BTMAssetID := ⟨List.replicate 32 255⟩
  NewTx := fun d => ⟨d, ⟨[d.Version, d.Outputs.length]⟩⟩
  MerkleRoot := fun txs => (⟨(txs.map BcTx.entries).flatten⟩, none)
  Empty := ⟨[]⟩
  ApplyTx := fun snap tx => (⟨snap.tree ++ tx.entries⟩, none)
  RootHash := fun snap => ⟨snap.tree⟩
  NewHash := fun b => ⟨b⟩
  HeaderHash := fun h => ⟨[h.Nonce]⟩
  CheckProofOfWork := fun h _ => pow h.bytes.sum

/-! ## Reference descriptions used to state the properties of the signing handler -/

/-- The errors obtained by running the action `act` once on every template of the list, in list
order, each run starting from the world state the previous one left, whatever it returned;
together with the final world state. -/
def signOutcomes {σ : Type} (act : TemplatePtr → σ → Option Err × σ) :
    List TemplatePtr → σ → List (Option Err) × σ
  | [], s => ([], s)
  | tx :: rest, s =>
    let r := act tx s
    let q := signOutcomes act rest r.2
    (r.1 :: q.1, q.2)

/-- What one template contributes to the response: the formatted error when signing it failed,
the template itself when it succeeded. -/
def contribution (format : Err → Response) (tx : TemplatePtr) : Option Err → RespItem
  | some err => RespItem.info (format err)
  | none => RespItem.template tx

/-- One recorded invocation of `txbuilder.Sign`. -/
structure SignCall where
  ctx : Context
  tx : TemplatePtr
  xpubs : List XPubKey
  auth : String
  signFn : SignFn

/-- The collaborators `E` with `txbuilder.Sign` replaced by a recorder: the world state is the
list of invocations so far, every invocation is appended to it, and the error returned is
chosen by `outcome` from the history and the invocation. -/
def recording {σ : Type} (E : Collab σ) (outcome : List SignCall → SignCall → Option Err) :
    Collab (List SignCall) where
  TxSign := fun ctx tx xpubs auth f calls =>
    (outcome calls ⟨ctx, tx, xpubs, auth, f⟩, calls ++ [⟨ctx, tx, xpubs, auth, f⟩])
  Format := E.Format
  XPubOf := E.XPubOf
  Derive := E.Derive
  XPrvSign := E.XPrvSign

/-- Collaborators for concrete runs: `txbuilder.Sign` fails with `Err.other tx` on the templates
in `bad` and succeeds on the others, counting its invocations in the world state. -/
def sampleCollab (bad : List TemplatePtr) : Collab Nat where
  TxSign := fun _ tx _ _ _ n => (if tx ∈ bad then some (Err.other tx) else none, n + 1)
  Format := fun e => ⟨⟨400, "BTM000", "signing failed"⟩, toString (repr e)⟩
  XPubOf := fun k => ⟨k.data.reverse⟩
  Derive := fun k path => ⟨k.data ++ path.flatten⟩
  XPrvSign := fun k msg => k.data ++ msg

/-- Collaborators for concrete runs in which `txbuilder.Sign` consults its callback: every
template `tx` has one slot, with path `[[tx]]` and digest `[tx]`, for which the callback is
asked once, with the first of the public keys and the password; the error of the callback,
if any, is the error of `txbuilder.Sign`. -/
def askingCollab : Collab Nat where
  TxSign := fun ctx tx xpubs auth f n =>
    match xpubs with
    | [] => (none, n)
    | k :: _ => ((f ctx k [[tx]] [tx] auth).2, n + 1)
  Format := fun e =>
    match e with
    | Err.ErrNoKey => ⟨⟨400, "BTM000", "signing failed"⟩, "no key"⟩
    | Err.other _ => ⟨⟨400, "BTM000", "signing failed"⟩, "other"⟩
    | _ => ⟨⟨400, "BTM000", "signing failed"⟩, "vault"⟩
  XPubOf := fun k => ⟨k.data.reverse⟩
  Derive := fun k path => ⟨k.data ++ path.flatten⟩
  XPrvSign := fun k msg => k.data ++ msg

/-- A vault for concrete runs: it signs with the single key `[1]` under password `"pw"`, and
its listing is empty and rejects the cursor `"bad"`. -/
def sampleHSM : HSM where
  XSign := fun xpub path msg auth =>
    if xpub.data ≠ [1] then (none, some Err.ErrNoKey)
    else if auth ≠ "pw" then (none, some (Err.other 7))
    else (some (path.flatten ++ msg), none)
  ListKeys := fun after _ =>
    if after = "bad" then ([], "", some Err.ErrInvalidAfter) else ([], after, none)

/-! ## Reference descriptions used to state the properties of the listing handler -/

/-- The entries of a vault in alias order (the order of their characters). -/
def sortedKeys (keys : List PseudoXPub) : List PseudoXPub :=
  keys.insertionSort (fun a b => a.Alias.data ≤ b.Alias.data)

/-- Modelled from the spec: the method `ListKeys` of the vault (package `pseudohsm`, which is
not among the sources). It returns the entries whose alias comes after the cursor, in alias
order, at most `limit` of them; the next cursor is the alias of the last entry returned, or
the cursor received when nothing is returned. The empty cursor stands before every alias. -/
def vaultListKeys (keys : List PseudoXPub) (after : String) (limit : Int) :
    List PseudoXPub × String × Option Err :=
  let rest := (sortedKeys keys).filter (fun k => decide (after.data < k.Alias.data))
  let xpubs := rest.take limit.toNat
  (xpubs, (match xpubs.getLast? with
    | some k => k.Alias
    | none => after), none)

/-- The vault `hsm` with its listing given by `vaultListKeys` over the entries `keys`. -/
def listingVault (hsm : HSM) (keys : List PseudoXPub) : HSM :=
  { hsm with ListKeys := vaultListKeys keys }

/-- A client that lists the vault page by page: it sends `query`, and as long as the response
is not an error and its `LastPage` flag is false it sends the `Next` query of the response;
at most `fuel` requests. The result is the sequence of pages received. -/
def iteratePages (hsm : HSM) : Nat → requestQuery → List page
  | 0, _ => []
  | fuel + 1, query =>
    match pseudohsmListKeys hsm query with
    | (_, some _) => []
    | (pg, none) => if pg.LastPage then [pg] else pg :: iteratePages hsm fuel pg.Next

/-- Four vault entries for concrete runs, with aliases `a`, `b`, `c`, `d`. -/
def sampleKeys : List PseudoXPub :=
  [⟨"c", ⟨[3]⟩, "f3"⟩, ⟨"a", ⟨[1]⟩, "f1"⟩, ⟨"d", ⟨[4]⟩, "f4"⟩, ⟨"b", ⟨[2]⟩, "f2"⟩]

/-! ## Lemmas on the signing loop -/

theorem signOutcomes_length {σ : Type} (act : TemplatePtr → σ → Option Err × σ)
    (txs : List TemplatePtr) (s : σ) : (signOutcomes act txs s).1.length = txs.length := by
  induction txs generalizing s with
  | nil => rfl
  | cons tx rest ih => simp [signOutcomes, ih]

theorem signTemplatesLoop_eq {σ : Type} (E : Collab σ) (hsm : HSM) (ctx : Context)
    (x : SignRequest) (txs : List TemplatePtr) (resp : List RespItem) (s : σ) :
    signTemplatesLoop E hsm ctx x txs resp s =
      (resp ++ List.zipWith (contribution E.Format) txs
          (signOutcomes (signOne E hsm ctx x) txs s).1,
        (signOutcomes (signOne E hsm ctx x) txs s).2) := by
  induction txs generalizing resp s with
  | nil => simp [signTemplatesLoop, signOutcomes]
  | cons tx rest ih =>
    rw [signTemplatesLoop]
    rcases h : signOne E hsm ctx x tx s with ⟨o, s1⟩
    cases o with
    | none => simp [ih, signOutcomes, h, contribution]
    | some err => simp [ih, signOutcomes, h, contribution]

theorem pseudohsmSignTemplates_eq {σ : Type} (E : Collab σ) (hsm : HSM) (ctx : Context)
    (x : SignRequest) (s : σ) :
    pseudohsmSignTemplates E hsm ctx x s =
      (List.replicate x.Txs.length RespItem.nil ++ List.zipWith (contribution E.Format) x.Txs
          (signOutcomes (signOne E hsm ctx x) x.Txs s).1,
        (signOutcomes (signOne E hsm ctx x) x.Txs s).2) :=
  signTemplatesLoop_eq E hsm ctx x x.Txs _ s

/-- The response always has twice as many entries as the batch has templates. -/
theorem pseudohsmSignTemplates_length {σ : Type} (E : Collab σ) (hsm : HSM) (ctx : Context)
    (x : SignRequest) (s : σ) :
    (pseudohsmSignTemplates E hsm ctx x s).1.length = 2 * x.Txs.length := by
  rw [pseudohsmSignTemplates_eq]
  simp [signOutcomes_length]
  omega

theorem recording_calls {σ : Type} (E : Collab σ) (outcome : List SignCall → SignCall → Option Err)
    (hsm : HSM) (ctx : Context) (x : SignRequest) (txs : List TemplatePtr)
    (calls : List SignCall) :
    ((signOutcomes (signOne (recording E outcome) hsm ctx x) txs calls).2).map SignCall.tx =
      calls.map SignCall.tx ++ txs := by
  induction txs generalizing calls with
  | nil => simp [signOutcomes]
  | cons tx rest ih =>
    simp only [signOutcomes]
    rw [ih]
    unfold signOne
    split <;> simp [recording]

/-! ## Properties of the signing handlers -/

/-- C1 (evaluation of the code): for a batch of one template whose signing succeeds,
`pseudohsmSignTemplates` returns two entries, a nil entry followed by the template, so the
response does not have one entry per template and its entry at position 0 is not the
template. -/
theorem pseudohsmSignTemplates_single_template :
    (pseudohsmSignTemplates (sampleCollab []) sampleHSM (Context.request 0)
        ⟨"", [7], ⟨[]⟩, ⟨[1]⟩⟩ 0).1 = [RespItem.nil, RespItem.template 7] ∧
    (pseudohsmSignTemplates (sampleCollab []) sampleHSM (Context.request 0)
        ⟨"", [7], ⟨[]⟩, ⟨[1]⟩⟩ 0).1.length ≠ [7].length := by
  decide

/-- C2: a failure never stops the batch. The entries `pseudohsmSignTemplates` appends to the
`len(x.Txs)` nil entries the response starts with are, in input order, one per template: the formatted error of the template when
signing it failed and the template itself when it succeeded, where signing is run once on
every template in input order, each run continuing from the state the previous run left
whether or not it failed. With a recording `txbuilder.Sign` and any choice of failures, the
recorded invocations are exactly the templates of the batch, once each, in input order. -/
theorem pseudohsmSignTemplates_failures_isolated {σ : Type} (E : Collab σ) (hsm : HSM)
    (ctx : Context) (x : SignRequest) (s : σ)
    (outcome : List SignCall → SignCall → Option Err) :
    (pseudohsmSignTemplates E hsm ctx x s).1 =
        List.replicate x.Txs.length RespItem.nil ++
          List.zipWith (contribution E.Format) x.Txs
            (signOutcomes (signOne E hsm ctx x) x.Txs s).1 ∧
    (pseudohsmSignTemplates E hsm ctx x s).1.drop x.Txs.length =
        List.zipWith (contribution E.Format) x.Txs
          (signOutcomes (signOne E hsm ctx x) x.Txs s).1 ∧
    (signOutcomes (signOne E hsm ctx x) x.Txs s).1.length = x.Txs.length ∧
    ((pseudohsmSignTemplates E hsm ctx x s).1.drop x.Txs.length).length = x.Txs.length ∧
    (∀ i (hi : i < x.Txs.length) (o : Option Err),
        (signOutcomes (signOne E hsm ctx x) x.Txs s).1[i]? = some o →
        ((pseudohsmSignTemplates E hsm ctx x s).1.drop x.Txs.length)[i]? =
          some (match o with
            | some err => RespItem.info (E.Format err)
            | none => RespItem.template (x.Txs.get ⟨i, hi⟩))) ∧
    (pseudohsmSignTemplates E hsm ctx x s).2 =
        (signOutcomes (signOne E hsm ctx x) x.Txs s).2 ∧
    ((pseudohsmSignTemplates (recording E outcome) hsm ctx x []).2).map SignCall.tx =
        x.Txs := by
  have hdrop : (pseudohsmSignTemplates E hsm ctx x s).1.drop x.Txs.length =
      List.zipWith (contribution E.Format) x.Txs
        (signOutcomes (signOne E hsm ctx x) x.Txs s).1 := by
    rw [pseudohsmSignTemplates_eq]
    simp
  refine ⟨by rw [pseudohsmSignTemplates_eq], hdrop, signOutcomes_length _ _ _, ?_, ?_, ?_, ?_⟩
  · rw [hdrop]
    simp [signOutcomes_length]
  · intro i hi o ho
    rw [hdrop, List.getElem?_zipWith, ho]
    simp only [List.get_eq_getElem, List.getElem?_eq_getElem hi]
    cases o <;> rfl
  · rw [pseudohsmSignTemplates_eq]
  · rw [pseudohsmSignTemplates_eq]
    simpa using recording_calls E outcome hsm ctx x x.Txs []

/-- Witness of C2: a batch of three templates of which the second fails. The entries appended
are the first template, the error record of the second and the third template, and the
recorder saw the three templates in order. -/
theorem pseudohsmSignTemplates_failures_isolated_witness :
    ((pseudohsmSignTemplates (sampleCollab [2]) sampleHSM (Context.request 0)
        ⟨"pw", [1, 2, 3], ⟨[1]⟩, ⟨[]⟩⟩ 0).1.drop 3).length = 3 ∧
    ((pseudohsmSignTemplates (sampleCollab [2]) sampleHSM (Context.request 0)
        ⟨"pw", [1, 2, 3], ⟨[1]⟩, ⟨[]⟩⟩ 0).1.drop 3)[1]? =
      some (RespItem.info ((sampleCollab [2]).Format (Err.other 2))) ∧
    ((pseudohsmSignTemplates (recording (sampleCollab [2]) (fun _ _ => none)) sampleHSM
        (Context.request 0) ⟨"pw", [1, 2, 3], ⟨[1]⟩, ⟨[]⟩⟩ []).2).map SignCall.tx =
      [1, 2, 3] :=
  have h := pseudohsmSignTemplates_failures_isolated (sampleCollab [2]) sampleHSM
    (Context.request 0) ⟨"pw", [1, 2, 3], ⟨[1]⟩, ⟨[]⟩⟩ 0 (fun _ _ => none)
  ⟨h.2.2.2.1, h.2.2.2.2.1 1 (by decide) (some (Err.other 2)) (by decide), h.2.2.2.2.2.2⟩

/-- C3: `pseudohsmSignTemplate` answers (no signature, no error) when `XSign` fails with
`ErrNoKey`, returns the same error when `XSign` fails with any other error, and returns the
signature bytes of `XSign` unchanged, with no error, when `XSign` succeeds. -/
theorem pseudohsmSignTemplate_soft_skip (hsm : HSM) (ctx : Context) (xpub : XPubKey)
    (path : List Bytes) (data : Bytes) (password : String) :
    ((hsm.XSign xpub path data password).2 = some Err.ErrNoKey →
        pseudohsmSignTemplate hsm ctx xpub path data password = (none, none)) ∧
    (∀ e, (hsm.XSign xpub path data password).2 = some e → e ≠ Err.ErrNoKey →
        (pseudohsmSignTemplate hsm ctx xpub path data password).2 = some e) ∧
    ((hsm.XSign xpub path data password).2 = none →
        pseudohsmSignTemplate hsm ctx xpub path data password =
          ((hsm.XSign xpub path data password).1, none)) := by
  refine ⟨?_, ?_, ?_⟩
  · intro h
    simp [pseudohsmSignTemplate, h]
  · intro e h hne
    simp [pseudohsmSignTemplate, h, hne]
  · intro h
    simp [pseudohsmSignTemplate, h]

/-- Witness of C3 on the sample vault: an unknown key is skipped, a wrong password is reported
with the vault's own error, and a successful signature is passed through. -/
theorem pseudohsmSignTemplate_soft_skip_witness :
    pseudohsmSignTemplate sampleHSM Context.background ⟨[2]⟩ [[3]] [4] "pw" = (none, none) ∧
    (pseudohsmSignTemplate sampleHSM Context.background ⟨[1]⟩ [[3]] [4] "no").2 =
      some (Err.other 7) ∧
    pseudohsmSignTemplate sampleHSM Context.background ⟨[1]⟩ [[3]] [4] "pw" =
      (some [3, 4], none) :=
  ⟨(pseudohsmSignTemplate_soft_skip sampleHSM Context.background ⟨[2]⟩ [[3]] [4] "pw").1
      (by decide),
   (pseudohsmSignTemplate_soft_skip sampleHSM Context.background ⟨[1]⟩ [[3]] [4] "no").2.1
      (Err.other 7) (by decide) (by decide),
   (pseudohsmSignTemplate_soft_skip sampleHSM Context.background ⟨[1]⟩ [[3]] [4] "pw").2.2
      (by decide)⟩

/-- C10: the signing path depends only on whether `Auth` is empty. When `Auth` is empty every
template is signed by `txbuilder.Sign` with the public key `XPrv.XPub()`, the empty password
and the inline callback; whatever it is asked, that callback returns the signature
`XPrv.Derive(path).Sign(data)` with no error, so it never returns an error and never a skip;
and the result is the same for every vault, request context and `XPub` field. When `Auth` is
not empty every template is signed by `txbuilder.Sign` with the request's `XPub`, `Auth` as
password and `pseudohsmSignTemplate`, a callback backed by the vault: whatever key, path,
digest and password it is asked with, it answers what the vault's `XSign` answers for them,
with `ErrNoKey` turned into a skip; and the result is the same for every `XPrv` field. -/
theorem pseudohsmSignTemplates_path_choice {σ : Type} (E : Collab σ) (hsm : HSM)
    (ctx : Context) (x : SignRequest) :
    (x.Auth = "" →
      (∀ tx s, signOne E hsm ctx x tx s =
          E.TxSign Context.background tx [E.XPubOf x.XPrv] "" (inlineSignFn E x.XPrv) s) ∧
      (∀ c k path data pw,
          inlineSignFn E x.XPrv c k path data pw =
            (some (E.XPrvSign (E.Derive x.XPrv path) data), none) ∧
          (inlineSignFn E x.XPrv c k path data pw).2 = none ∧
          (inlineSignFn E x.XPrv c k path data pw).1 ≠ none ∧
          inlineSignFn E x.XPrv c k path data pw ≠ (none, none)) ∧
      (∀ s, (pseudohsmSignTemplates E hsm ctx x s).1.drop x.Txs.length =
          List.zipWith (contribution E.Format) x.Txs
            (signOutcomes (fun tx => E.TxSign Context.background tx [E.XPubOf x.XPrv] ""
              (inlineSignFn E x.XPrv)) x.Txs s).1) ∧
      (∀ (hsm2 : HSM) (ctx2 : Context) (xpub2 : XPubKey) (s : σ),
          pseudohsmSignTemplates E hsm2 ctx2 { x with XPub := xpub2 } s =
            pseudohsmSignTemplates E hsm ctx x s)) ∧
    (x.Auth ≠ "" →
      (∀ tx s, signOne E hsm ctx x tx s =
          E.TxSign ctx tx [x.XPub] x.Auth (pseudohsmSignTemplate hsm) s) ∧
      (∀ c k path data pw,
          pseudohsmSignTemplate hsm c k path data pw =
            if (hsm.XSign k path data pw).2 = some Err.ErrNoKey then (none, none)
            else hsm.XSign k path data pw) ∧
      (∀ s, (pseudohsmSignTemplates E hsm ctx x s).1.drop x.Txs.length =
          List.zipWith (contribution E.Format) x.Txs
            (signOutcomes (fun tx => E.TxSign ctx tx [x.XPub] x.Auth
              (pseudohsmSignTemplate hsm)) x.Txs s).1) ∧
      (∀ (xprv2 : XPrvKey) (s : σ),
          pseudohsmSignTemplates E hsm ctx { x with XPrv := xprv2 } s =
            pseudohsmSignTemplates E hsm ctx x s)) := by
  constructor
  · intro h
    have hone : ∀ (hsm2 : HSM) (ctx2 : Context) (xpub2 : XPubKey),
        signOne E hsm2 ctx2 { x with XPub := xpub2 } = signOne E hsm ctx x := by
      intro hsm2 ctx2 xpub2
      funext tx s
      simp [signOne, h]
    have hact : signOne E hsm ctx x = fun tx =>
        E.TxSign Context.background tx [E.XPubOf x.XPrv] "" (inlineSignFn E x.XPrv) := by
      funext tx s
      simp [signOne, h]
    refine ⟨?_, ?_, ?_, ?_⟩
    · intro tx s
      simp [signOne, h]
    · intro c k path data pw
      refine ⟨rfl, rfl, ?_, ?_⟩
      · simp [inlineSignFn]
      · simp [inlineSignFn]
    · intro s
      rw [pseudohsmSignTemplates_eq, hact]
      simp
    · intro hsm2 ctx2 xpub2 s
      rw [pseudohsmSignTemplates_eq, pseudohsmSignTemplates_eq, hone]
  · intro h
    have hone : ∀ (xprv2 : XPrvKey),
        signOne E hsm ctx { x with XPrv := xprv2 } = signOne E hsm ctx x := by
      intro xprv2
      funext tx s
      simp [signOne, h]
    have hact : signOne E hsm ctx x = fun tx =>
        E.TxSign ctx tx [x.XPub] x.Auth (pseudohsmSignTemplate hsm) := by
      funext tx s
      simp [signOne, h]
    refine ⟨?_, ?_, ?_, ?_⟩
    · intro tx s
      simp [signOne, h]
    · intro c k path data pw
      rfl
    · intro s
      rw [pseudohsmSignTemplates_eq, hact]
      simp
    · intro xprv2 s
      rw [pseudohsmSignTemplates_eq, pseudohsmSignTemplates_eq, hone]

/-! ## Lemmas on the nonce loop -/

theorem Block.setNonce_setNonce (b : Block) (i n : Nat) :
    (b.setNonce i).setNonce n = b.setNonce n := rfl

theorem sealedAt_setNonce (C : Chain) (b : Block) (i n : Nat) :
    sealedAt C (b.setNonce i) n = sealedAt C b n := rfl

/-- The loop stops at the first nonce from `i` on that passes the check. -/
theorem nonceLoop_found (C : Chain) (k : Nat) : ∀ (i : Nat) (b : Block) (a : Nat),
    i + k ≤ 10000000000000 → sealedAt C b (i + k) = true →
    (∀ m, i ≤ m → m < i + k → sealedAt C b m = false) →
    nonceLoop C i b a = (b.setNonce (i + k), a + k + 1) := by
  induction k with
  | zero =>
    intro i b a hle hs _
    rw [nonceLoop]
    have hs2 : C.CheckProofOfWork (C.HeaderHash (b.setNonce i).BlockHeader)
        (b.setNonce i).BlockHeader.Bits = true := hs
    simp [hle, hs2]
    exact Nat.le_trans (Nat.le_add_right i 0) hle
  | succ k ih =>
    intro i b a hle hs hno
    have hi : i ≤ 10000000000000 := by omega
    have hf : C.CheckProofOfWork (C.HeaderHash (b.setNonce i).BlockHeader)
        (b.setNonce i).BlockHeader.Bits = false := hno i (Nat.le_refl i) (by omega)
    have hmod : (i + 1) % 18446744073709551616 = i + 1 := by omega
    rw [nonceLoop]
    simp only [hi, hf, hmod, dite_true]
    have hrec := ih (i + 1) (b.setNonce i) (a + 1) (by omega)
      (by rw [sealedAt_setNonce]; rw [← hs]; congr 1; omega)
      (by
        intro m hm1 hm2
        rw [sealedAt_setNonce]
        exact hno m (by omega) (by omega))
    simp only [Bool.false_eq_true, if_false]
    rw [hrec, Block.setNonce_setNonce]
    congr 1
    · congr 1
      omega
    · omega

/-- When no nonce from `i` to the bound passes the check, the loop runs to the bound and leaves
the block with the last nonce tried. -/
theorem nonceLoop_exhausted (C : Chain) (k : Nat) : ∀ (i : Nat) (b : Block) (a : Nat),
    i + k = 10000000000000 →
    (∀ m, i ≤ m → m ≤ 10000000000000 → sealedAt C b m = false) →
    nonceLoop C i b a = (b.setNonce 10000000000000, a + k + 1) := by
  induction k with
  | zero =>
    intro i b a hle hno
    have hi : i = 10000000000000 := by omega
    subst hi
    have hf : C.CheckProofOfWork (C.HeaderHash (b.setNonce 10000000000000).BlockHeader)
        (b.setNonce 10000000000000).BlockHeader.Bits = false :=
      hno _ (Nat.le_refl _) (Nat.le_refl _)
    rw [nonceLoop]
    simp only [Nat.le_refl, dite_true, hf, Bool.false_eq_true, if_false]
    rw [nonceLoop]
    simp
  | succ k ih =>
    intro i b a hle hno
    have hi : i ≤ 10000000000000 := by omega
    have hf : C.CheckProofOfWork (C.HeaderHash (b.setNonce i).BlockHeader)
        (b.setNonce i).BlockHeader.Bits = false := hno i (Nat.le_refl i) hi
    have hmod : (i + 1) % 18446744073709551616 = i + 1 := by omega
    rw [nonceLoop]
    simp only [hi, hf, hmod, dite_true, Bool.false_eq_true, if_false]
    rw [ih (i + 1) (b.setNonce i) (a + 1) (by omega)
      (by
        intro m hm1 hm2
        rw [sealedAt_setNonce]
        exact hno m (by omega) hm2)]
    rw [Block.setNonce_setNonce]
    congr 1
    omega

/-- The loop changes nothing but the nonce. -/
theorem nonceLoop_only_nonce (C : Chain) (k : Nat) : ∀ (i : Nat) (b : Block) (a : Nat),
    10000000000001 - i = k →
    (nonceLoop C i b a).1 = b.setNonce (nonceLoop C i b a).1.BlockHeader.Nonce := by
  induction k with
  | zero =>
    intro i b a hk
    rw [nonceLoop]
    have hi : ¬ i ≤ 10000000000000 := by omega
    simp only [hi, dite_false]
    rfl
  | succ k ih =>
    intro i b a hk
    have hi : i ≤ 10000000000000 := by omega
    have hmod : (i + 1) % 18446744073709551616 = i + 1 := by omega
    rw [nonceLoop]
    simp only [hi, hmod, dite_true]
    split
    · rfl
    · have hrec := ih (i + 1) (b.setNonce i) (a + 1) (by omega)
      rw [Block.setNonce_setNonce] at hrec
      exact hrec

/-- The loop evaluates the check at most once per nonce from `i` to the bound. -/
theorem nonceLoop_attempts (C : Chain) (k : Nat) : ∀ (i : Nat) (b : Block) (a : Nat),
    10000000000001 - i = k → (nonceLoop C i b a).2 ≤ a + k := by
  induction k with
  | zero =>
    intro i b a hk
    rw [nonceLoop]
    have hi : ¬ i ≤ 10000000000000 := by omega
    simp [hi]
  | succ k ih =>
    intro i b a hk
    have hi : i ≤ 10000000000000 := by omega
    have hmod : (i + 1) % 18446744073709551616 = i + 1 := by omega
    rw [nonceLoop]
    simp only [hi, hmod, dite_true]
    split
    · simp only []
      omega
    · have hrec := ih (i + 1) (b.setNonce i) (a + 1) (by omega)
      omega

/-- When the Merkle root and the application of the transaction succeed, the block before the
nonce loop is built. -/
theorem genesisTemplate_ok (C : Chain)
    (hm : (C.MerkleRoot [(GenerateGenesisTx C).Tx]).2 = none)
    (ha : (C.ApplyTx C.Empty (GenerateGenesisTx C).Tx).2 = none) :
    genesisTemplate C = Except.ok
      { BlockHeader :=
          { Version := 1
            Height := 1
            Seed := C.NewHash (List.replicate 32 0)
            TimestampMS := 1511318565142
            BlockCommitment :=
              { TransactionsMerkleRoot := (C.MerkleRoot [(GenerateGenesisTx C).Tx]).1
                AssetsMerkleRoot :=
                  C.RootHash (C.ApplyTx C.Empty (GenerateGenesisTx C).Tx).1 }
            Nonce := 0
            Bits := 2161727821138738707 }
        Transactions := [GenerateGenesisTx C] } := by
  unfold genesisTemplate
  rcases h1 : C.MerkleRoot [(GenerateGenesisTx C).Tx] with ⟨root, e1⟩
  rw [h1] at hm
  simp only at hm
  subst hm
  rcases h2 : C.ApplyTx C.Empty (GenerateGenesisTx C).Tx with ⟨snap, e2⟩
  rw [h2] at ha
  simp only at ha
  subst ha
  simp [h1, h2]

/-- When the block before the nonce loop is built, `GenerateGenesisBlock` returns the block the
loop leaves. -/
theorem GenerateGenesisBlock_of_template (C : Chain) (b0 : Block)
    (ht : genesisTemplate C = Except.ok b0) :
    GenerateGenesisBlock C = Except.ok (nonceLoop C 0 b0 0).1 := by
  simp [GenerateGenesisBlock, ht]

/-- When the block before the nonce loop is built and no nonce up to the bound passes the
check, `GenerateGenesisBlock` returns the block with the last nonce tried. -/
theorem GenerateGenesisBlock_exhausted (C : Chain) (b0 : Block)
    (ht : genesisTemplate C = Except.ok b0)
    (hno : ∀ m, m ≤ 10000000000000 → sealedAt C b0 m = false) :
    GenerateGenesisBlock C = Except.ok (b0.setNonce 10000000000000) := by
  rw [GenerateGenesisBlock_of_template C b0 ht,
    nonceLoop_exhausted C 10000000000000 0 b0 0 (by norm_num) (fun m _ hm => hno m hm)]

/-! ## Properties of the genesis functions -/

/-- C4 (evaluation of the code): with a proof-of-work predicate that no nonce satisfies,
`GenerateGenesisBlock` reports no failure: it returns a block, whose nonce is the last nonce
tried, 10000000000000, and whose header hash does not pass `CheckProofOfWork`. -/
theorem GenerateGenesisBlock_exhausted_returns_unsealed :
    ∃ blk, GenerateGenesisBlock (sampleChain (fun _ => false)) = Except.ok blk ∧
      blk.BlockHeader.Nonce = 10000000000000 ∧
      (sampleChain (fun _ => false)).CheckProofOfWork
        ((sampleChain (fun _ => false)).HeaderHash blk.BlockHeader)
        blk.BlockHeader.Bits = false := by
  have ht := genesisTemplate_ok (sampleChain (fun _ => false)) rfl rfl
  exact ⟨_, GenerateGenesisBlock_exhausted (sampleChain (fun _ => false)) _ ht
    (fun _ _ => rfl), rfl, rfl⟩

/-- C5: the nonce search evaluates the check at most 10000000000001 times, whatever the
collaborators; and when the block before the loop is built and some nonce up to
10000000000000 passes `CheckProofOfWork`, `GenerateGenesisBlock` returns that block with only
its nonce set, the nonce passes the check, no smaller nonce (from 0 upward) does, and the
search made exactly nonce + 1 attempts. -/
theorem GenerateGenesisBlock_minimal_nonce (C : Chain) :
    (∀ b : Block, (nonceLoop C 0 b 0).2 ≤ 10000000000001) ∧
    (∀ (b0 : Block) (n : Nat), genesisTemplate C = Except.ok b0 → n ≤ 10000000000000 →
      C.CheckProofOfWork (C.HeaderHash (b0.setNonce n).BlockHeader)
        (b0.setNonce n).BlockHeader.Bits = true →
      ∃ blk, GenerateGenesisBlock C = Except.ok blk ∧
        blk = b0.setNonce blk.BlockHeader.Nonce ∧
        C.CheckProofOfWork (C.HeaderHash blk.BlockHeader) blk.BlockHeader.Bits = true ∧
        (∀ m, m < blk.BlockHeader.Nonce →
          C.CheckProofOfWork (C.HeaderHash (b0.setNonce m).BlockHeader)
            (b0.setNonce m).BlockHeader.Bits = false) ∧
        blk.BlockHeader.Nonce ≤ n ∧
        (nonceLoop C 0 b0 0).2 = blk.BlockHeader.Nonce + 1) := by
  constructor
  · intro b
    have h := nonceLoop_attempts C 10000000000001 0 b 0 rfl
    omega
  · intro b0 n ht hn hs
    have hex : ∃ m, sealedAt C b0 m = true := ⟨n, hs⟩
    have hmin : ∀ m, m < Nat.find hex → sealedAt C b0 m = false := by
      intro m hm
      have := Nat.find_min hex hm
      simpa using this
    have hle : Nat.find hex ≤ n := Nat.find_min' hex hs
    have hloop := nonceLoop_found C (Nat.find hex) 0 b0 0 (by omega)
      (by simpa using Nat.find_spec hex)
      (by intro m _ hm; exact hmin m (by omega))
    simp only [Nat.zero_add] at hloop
    refine ⟨_, GenerateGenesisBlock_of_template C b0 ht, ?_, ?_, ?_, ?_, ?_⟩
    · rw [hloop]
      rfl
    · rw [hloop]
      exact Nat.find_spec hex
    · intro m hm
      rw [hloop] at hm
      exact hmin m hm
    · rw [hloop]
      exact hle
    · rw [hloop]
      rfl

/-- Witness of C5: with a proof-of-work predicate first satisfied at nonce 3 the hypotheses
hold at `n = 5`. -/
theorem GenerateGenesisBlock_minimal_nonce_witness :
    ∃ b0 blk, genesisTemplate (sampleChain (fun n => decide (3 ≤ n))) = Except.ok b0 ∧
      GenerateGenesisBlock (sampleChain (fun n => decide (3 ≤ n))) = Except.ok blk ∧
      blk = b0.setNonce blk.BlockHeader.Nonce ∧
      blk.BlockHeader.Nonce ≤ 5 := by
  have ht := genesisTemplate_ok (sampleChain (fun n => decide (3 ≤ n))) rfl rfl
  obtain ⟨blk, h1, h2, _, _, h5, _⟩ :=
    (GenerateGenesisBlock_minimal_nonce (sampleChain (fun n => decide (3 ≤ n)))).2 _ 5 ht
      (by norm_num) (by decide)
  exact ⟨_, blk, ht, h1, h2, h5⟩

/-- C6: when the Merkle root and the application of the transaction succeed,
`GenerateGenesisBlock` returns a block whose transaction list is the single transaction of
`GenerateGenesisTx`, whose `TransactionsMerkleRoot` is `MerkleRoot` of the one-element list
holding that transaction and whose `AssetsMerkleRoot` is the root hash of the snapshot that
`ApplyTx` leaves from `state.Empty()`; the nonce search changes only the nonce, so the block
returned is the block built before the search with its nonce replaced. -/
theorem GenerateGenesisBlock_commitment (C : Chain)
    (hm : (C.MerkleRoot [(GenerateGenesisTx C).Tx]).2 = none)
    (ha : (C.ApplyTx C.Empty (GenerateGenesisTx C).Tx).2 = none) :
    (∀ (i : Nat) (b : Block) (a : Nat),
      (nonceLoop C i b a).1 = b.setNonce (nonceLoop C i b a).1.BlockHeader.Nonce) ∧
    ∃ blk b0, GenerateGenesisBlock C = Except.ok blk ∧
      genesisTemplate C = Except.ok b0 ∧
      blk = b0.setNonce blk.BlockHeader.Nonce ∧
      blk.Transactions = [GenerateGenesisTx C] ∧
      blk.BlockHeader.BlockCommitment.TransactionsMerkleRoot =
        (C.MerkleRoot [(GenerateGenesisTx C).Tx]).1 ∧
      blk.BlockHeader.BlockCommitment.AssetsMerkleRoot =
        C.RootHash (C.ApplyTx C.Empty (GenerateGenesisTx C).Tx).1 ∧
      blk.BlockHeader.Version = b0.BlockHeader.Version ∧
      blk.BlockHeader.Height = b0.BlockHeader.Height ∧
      blk.BlockHeader.Seed = b0.BlockHeader.Seed ∧
      blk.BlockHeader.TimestampMS = b0.BlockHeader.TimestampMS ∧
      blk.BlockHeader.BlockCommitment = b0.BlockHeader.BlockCommitment ∧
      blk.BlockHeader.Bits = b0.BlockHeader.Bits := by
  have honly : ∀ (i : Nat) (b : Block) (a : Nat),
      (nonceLoop C i b a).1 = b.setNonce (nonceLoop C i b a).1.BlockHeader.Nonce :=
    fun i b a => nonceLoop_only_nonce C _ i b a rfl
  refine ⟨honly, ?_⟩
  have ht := genesisTemplate_ok C hm ha
  refine ⟨_, _, GenerateGenesisBlock_of_template C _ ht, ht, honly 0 _ 0, ?_⟩
  rw [honly 0 _ 0]
  simp [Block.setNonce]

/-- Witness of C6 on the sample collaborators. -/
theorem GenerateGenesisBlock_commitment_witness :
    ∃ blk, GenerateGenesisBlock (sampleChain (fun _ => true)) = Except.ok blk ∧
      blk.Transactions = [GenerateGenesisTx (sampleChain (fun _ => true))] ∧
      blk.BlockHeader.BlockCommitment.TransactionsMerkleRoot = ⟨[1, 1]⟩ ∧
      blk.BlockHeader.BlockCommitment.AssetsMerkleRoot = ⟨[1, 1]⟩ := by
  obtain ⟨blk, b0, h1, _, _, h4, h5, h6, _⟩ :=
    (GenerateGenesisBlock_commitment (sampleChain (fun _ => true)) rfl rfl).2
  exact ⟨blk, h1, h4, h5, h6⟩

/-- C9: `GenerateGenesisTx` is `legacy.NewTx` of transaction data with no inputs and exactly one
output, of 1470000000000000000 units (less than 2^64) of `consensus.BTMAssetID`, with the
one-byte control program 0x51; and when the Merkle root and the application of the
transaction succeed, the header of the block `GenerateGenesisBlock` returns has bits
2161727821138738707, height 1, version 1 and the `MaxTime` of that transaction data as
timestamp. -/
theorem genesis_constants (C : Chain)
    (hm : (C.MerkleRoot [(GenerateGenesisTx C).Tx]).2 = none)
    (ha : (C.ApplyTx C.Empty (GenerateGenesisTx C).Tx).2 = none) :
    GenerateGenesisTx C = C.NewTx (genesisTxData C) ∧
    (genesisTxData C).Inputs = [] ∧
    (∃ out, (genesisTxData C).Outputs = [out] ∧
      out.OutputCommitment.AssetAmount.Amount = 1470000000000000000 ∧
      out.OutputCommitment.AssetAmount.Amount < 2 ^ 64 ∧
      out.OutputCommitment.AssetAmount.AssetId = C.BTMAssetID ∧
      out.OutputCommitment.ControlProgram = [0x51]) ∧
    ∃ blk, GenerateGenesisBlock C = Except.ok blk ∧
      blk.BlockHeader.Bits = 2161727821138738707 ∧
      blk.BlockHeader.Height = 1 ∧
      blk.BlockHeader.Version = 1 ∧
      blk.BlockHeader.TimestampMS = (genesisTxData C).MaxTime := by
  refine ⟨rfl, rfl, ⟨_, rfl, rfl, by norm_num [genesisTxData], rfl, rfl⟩, ?_⟩
  have ht := genesisTemplate_ok C hm ha
  refine ⟨_, GenerateGenesisBlock_of_template C _ ht, ?_⟩
  rw [nonceLoop_only_nonce C _ 0 _ 0 rfl]
  simp [Block.setNonce, genesisTxData]

/-- Witness of C9 on the sample collaborators. -/
theorem genesis_constants_witness :
    (genesisTxData (sampleChain (fun _ => true))).Inputs = [] ∧
    ∃ blk, GenerateGenesisBlock (sampleChain (fun _ => true)) = Except.ok blk ∧
      blk.BlockHeader.Bits = 2161727821138738707 ∧
      blk.BlockHeader.Height = 1 := by
  obtain ⟨_, h2, _, blk, h4, h5, h6, _⟩ :=
    genesis_constants (sampleChain (fun _ => true)) rfl rfl
  exact ⟨h2, blk, h4, h5, h6⟩

/-! ## Properties of the listing handler -/

theorem foldl_append_singleton {α : Type} (xs acc : List α) :
    xs.foldl (fun items x => items ++ [x]) acc = acc ++ xs := by
  induction xs generalizing acc with
  | nil => simp
  | cons x rest ih => simp [ih]

/-- C7 (the claim fails): with the four keys `a`, `b`, `c`, `d` and page size 2, the second page
holds the last key `d`, and its `LastPage` flag is false; the iteration needs a third, empty
page. -/
theorem pseudohsmListKeys_exact_multiple_last_page :
    iteratePages (listingVault sampleHSM sampleKeys) 5 ⟨2, ""⟩ =
      [⟨[⟨"a", ⟨[1]⟩, "f1"⟩, ⟨"b", ⟨[2]⟩, "f2"⟩], false, ⟨2, "b"⟩⟩,
       ⟨[⟨"c", ⟨[3]⟩, "f3"⟩, ⟨"d", ⟨[4]⟩, "f4"⟩], false, ⟨2, "d"⟩⟩,
       ⟨[], true, ⟨2, "d"⟩⟩] ∧
    (sampleKeys.length = 4 ∧ ∀ k ∈ sampleKeys, k.Alias.data ≤ "d".data) ∧
    ∃ pg, (iteratePages (listingVault sampleHSM sampleKeys) 5 ⟨2, ""⟩)[1]? = some pg ∧
      (⟨"d", ⟨[4]⟩, "f4"⟩ : PseudoXPub) ∈ pg.Items ∧ pg.LastPage = false := by
  have h : iteratePages (listingVault sampleHSM sampleKeys) 5 ⟨2, ""⟩ =
      [⟨[⟨"a", ⟨[1]⟩, "f1"⟩, ⟨"b", ⟨[2]⟩, "f2"⟩], false, ⟨2, "b"⟩⟩,
       ⟨[⟨"c", ⟨[3]⟩, "f3"⟩, ⟨"d", ⟨[4]⟩, "f4"⟩], false, ⟨2, "d"⟩⟩,
       ⟨[], true, ⟨2, "d"⟩⟩] := by decide
  refine ⟨h, ⟨rfl, by decide⟩, ?_⟩
  rw [h]
  exact ⟨_, rfl, by decide, rfl⟩

/-- C8: `pseudohsmListKeys` calls the vault's `ListKeys` with the query's `After` unchanged and
with the limit 100 when `PageSize` is 0 and `PageSize` itself otherwise, whatever its size;
when that call fails the handler returns the same error with the empty page, and otherwise
it returns the entries of the vault, the flag `len(xpubs) < limit` and the query with the
vault's cursor. -/
theorem pseudohsmListKeys_limit (hsm : HSM) (query : requestQuery) :
    defGenericPageSize = 100 ∧
    (query.PageSize = 0 →
      pseudohsmListKeys hsm query =
        match hsm.ListKeys query.After 100 with
        | (_, _, some err) => (⟨[], false, ⟨0, ""⟩⟩, some err)
        | (xpubs, after, none) =>
          (⟨xpubs, decide ((xpubs.length : Int) < 100), ⟨query.PageSize, after⟩⟩, none)) ∧
    (query.PageSize ≠ 0 →
      pseudohsmListKeys hsm query =
        match hsm.ListKeys query.After query.PageSize with
        | (_, _, some err) => (⟨[], false, ⟨0, ""⟩⟩, some err)
        | (xpubs, after, none) =>
          (⟨xpubs, decide ((xpubs.length : Int) < query.PageSize),
            ⟨query.PageSize, after⟩⟩, none)) ∧
    (∀ err,
      (hsm.ListKeys query.After
        (if query.PageSize = 0 then 100 else query.PageSize)).2.2 = some err →
      pseudohsmListKeys hsm query = (⟨[], false, ⟨0, ""⟩⟩, some err)) := by
  refine ⟨rfl, ?_, ?_, ?_⟩
  · intro h
    unfold pseudohsmListKeys
    simp only [h, if_true, defGenericPageSize]
    split <;> simp_all [foldl_append_singleton]
  · intro h
    unfold pseudohsmListKeys
    simp only [h, if_false]
    split <;> simp_all [foldl_append_singleton]
  · intro err h
    unfold pseudohsmListKeys
    simp only [defGenericPageSize]
    split
    · simp_all
    · simp_all

/-! ## Lemmas on the paged listing -/

/-- With distinct aliases, the entries in alias order are strictly increasing. -/
theorem sortedKeys_pairwise (keys : List PseudoXPub)
    (hnd : (keys.map PseudoXPub.Alias).Nodup) :
    (sortedKeys keys).Pairwise (fun a b => a.Alias.data < b.Alias.data) := by
  haveI : IsTotal PseudoXPub (fun a b => a.Alias.data ≤ b.Alias.data) :=
    ⟨fun a b => le_total _ _⟩
  haveI : IsTrans PseudoXPub (fun a b => a.Alias.data ≤ b.Alias.data) :=
    ⟨fun a b c hab hbc => le_trans hab hbc⟩
  have hs : (sortedKeys keys).Pairwise (fun a b => a.Alias.data ≤ b.Alias.data) :=
    List.sorted_insertionSort _ keys
  have hp : (sortedKeys keys).Perm keys := List.perm_insertionSort _ keys
  have hnd2 : ((sortedKeys keys).map PseudoXPub.Alias).Nodup :=
    (hp.map PseudoXPub.Alias).nodup_iff.2 hnd
  have hne : (sortedKeys keys).Pairwise (fun a b => a.Alias ≠ b.Alias) :=
    List.pairwise_map.1 hnd2
  refine (hs.and hne).imp ?_
  intro a b hab
  refine lt_of_le_of_ne hab.1 ?_
  intro h
  exact hab.2 (String.ext h)

theorem vaultListKeys_split (keys A B : List PseudoXPub) (c : String) (limit : Int)
    (hL : sortedKeys keys = A ++ B)
    (hA : ∀ a ∈ A, a.Alias.data ≤ c.data) (hB : ∀ b ∈ B, c.data < b.Alias.data) :
    vaultListKeys keys c limit =
      (B.take limit.toNat, (match (B.take limit.toNat).getLast? with
        | some k => k.Alias
        | none => c), none) := by
  have hf : (sortedKeys keys).filter (fun k => decide (c.data < k.Alias.data)) = B := by
    rw [hL, List.filter_append, List.filter_eq_nil_iff.2, List.filter_eq_self.2]
    · rfl
    · intro b hb
      simpa using hB b hb
    · intro a ha
      simpa using hA a ha
  unfold vaultListKeys
  rw [hf]

theorem pseudohsmListKeys_page (hsm : HSM) (keys A B : List PseudoXPub) (c : String) (P : Nat)
    (hP : 0 < P) (hL : sortedKeys keys = A ++ B)
    (hA : ∀ a ∈ A, a.Alias.data ≤ c.data) (hB : ∀ b ∈ B, c.data < b.Alias.data) :
    pseudohsmListKeys (listingVault hsm keys) ⟨(P : Int), c⟩ =
      (⟨B.take P, decide (B.length < P), ⟨(P : Int), (match (B.take P).getLast? with
        | some k => k.Alias
        | none => c)⟩⟩, none) := by
  have hP0 : ¬ ((P : Int) = 0) := by omega
  unfold pseudohsmListKeys
  simp only [hP0, if_false, listingVault]
  rw [vaultListKeys_split keys A B c (P : Int) hL hA hB]
  simp only [Int.toNat_ofNat, foldl_append_singleton, List.nil_append, List.length_take]
  congr 2
  by_cases h : B.length < P
  · have h2 : ((min P B.length : Nat) : Int) < (P : Int) := by omega
    simp [h, h2]
  · have h2 : ¬ ((min P B.length : Nat) : Int) < (P : Int) := by omega
    simp [h, h2]

theorem page_step (A B : List PseudoXPub) (P : Nat) (hP : 0 < P) (hle : P ≤ B.length)
    (hpw : (A ++ B).Pairwise (fun a b => a.Alias.data < b.Alias.data)) :
    ∃ z, (B.take P).getLast? = some z ∧
      (∀ a ∈ A ++ B.take P, a.Alias.data ≤ z.Alias.data) ∧
      (∀ b ∈ B.drop P, z.Alias.data < b.Alias.data) := by
  have hne : B.take P ≠ [] := by
    intro h
    have := congrArg List.length h
    rw [List.length_take, List.length_nil] at this
    omega
  obtain ⟨init, z, hz⟩ : ∃ init z, B.take P = init ++ [z] :=
    ⟨(B.take P).dropLast, (B.take P).getLast hne, (List.dropLast_append_getLast hne).symm⟩
  have hB : B = init ++ [z] ++ B.drop P := by
    rw [← hz, List.take_append_drop]
  have hpw2 : ((A ++ init) ++ (z :: B.drop P)).Pairwise
      (fun a b => a.Alias.data < b.Alias.data) := by
    have : (A ++ init) ++ (z :: B.drop P) = A ++ B := by
      conv_rhs => rw [hB]
      simp
    rw [this]
    exact hpw
  rw [List.pairwise_append] at hpw2
  obtain ⟨_, hz2, hcross⟩ := hpw2
  refine ⟨z, by simp [hz], ?_, ?_⟩
  · intro a ha
    rw [hz, ← List.append_assoc, List.mem_append] at ha
    rcases ha with ha | ha
    · exact le_of_lt (hcross a ha z (List.mem_cons_self _ _))
    · simp at ha
      rw [ha]
  · intro b hb
    exact (List.pairwise_cons.1 hz2).1 b hb

/-- The pages a client receives when it lists, from a cursor that separates the entries already
seen (`A`) from those to come (`B`), with page size `P`. -/
theorem iteratePages_spec (hsm : HSM) (keys : List PseudoXPub) (P : Nat) (hP : 0 < P)
    (hpw : (sortedKeys keys).Pairwise (fun a b => a.Alias.data < b.Alias.data)) :
    ∀ (fuel : Nat) (A B : List PseudoXPub) (c : String), sortedKeys keys = A ++ B →
      (∀ a ∈ A, a.Alias.data ≤ c.data) → (∀ b ∈ B, c.data < b.Alias.data) →
      B.length / P + 1 ≤ fuel →
      ((iteratePages (listingVault hsm keys) fuel ⟨(P : Int), c⟩).map page.Items).flatten = B ∧
      (iteratePages (listingVault hsm keys) fuel ⟨(P : Int), c⟩).length = B.length / P + 1 ∧
      (∀ p ∈ (iteratePages (listingVault hsm keys) fuel ⟨(P : Int), c⟩).dropLast,
        p.LastPage = false ∧ p.Items.length = P) ∧
      ∃ last, (iteratePages (listingVault hsm keys) fuel ⟨(P : Int), c⟩).getLast? = some last ∧
        last.LastPage = true ∧ last.Items.length = B.length % P := by
  intro fuel
  induction fuel with
  | zero =>
    intro A B c _ _ _ hf
    exact absurd hf (Nat.not_succ_le_zero _)
  | succ f ih =>
    intro A B c hL hA hB hf
    rw [iteratePages, pseudohsmListKeys_page hsm keys A B c P hP hL hA hB]
    by_cases hlt : B.length < P
    · have htake : B.take P = B := List.take_of_length_le (by omega)
      simp only [hlt, decide_True, if_true, htake]
      refine ⟨by simp, ?_, by simp, ?_⟩
      · simp [Nat.div_eq_of_lt hlt]
      · exact ⟨_, rfl, rfl, (Nat.mod_eq_of_lt hlt).symm⟩
    · have hle : P ≤ B.length := by omega
      obtain ⟨z, hz, hA2, hB2⟩ := page_step A B P hP hle (hL ▸ hpw)
      have hL2 : sortedKeys keys = (A ++ B.take P) ++ B.drop P := by
        rw [List.append_assoc, List.take_append_drop]
        exact hL
      have hdiv : B.length / P = (B.length - P) / P + 1 := Nat.div_eq_sub_div hP hle
      have hmod : B.length % P = (B.length - P) % P := Nat.mod_eq_sub_mod hle
      have hrec := ih (A ++ B.take P) (B.drop P) z.Alias hL2 hA2 hB2
        (by rw [List.length_drop]; omega)
      obtain ⟨h1, h2, h3, last, h4, h5, h6⟩ := hrec
      rw [List.length_drop] at h2 h6
      have hnil : iteratePages (listingVault hsm keys) f ⟨(P : Int), z.Alias⟩ ≠ [] := by
        intro h
        rw [h] at h2
        simp at h2
      simp only [hlt, decide_False, hz, Bool.false_eq_true, if_false]
      refine ⟨?_, ?_, ?_, ?_⟩
      · simp only [List.map_cons, List.flatten_cons, h1]
        exact List.take_append_drop P B
      · simp only [List.length_cons, h2]
        omega
      · intro p hp
        rw [List.dropLast_cons_of_ne_nil hnil, List.mem_cons] at hp
        rcases hp with hp | hp
        · subst hp
          refine ⟨rfl, ?_⟩
          simp only [List.length_take]
          omega
        · exact h3 p hp
      · refine ⟨last, ?_, h5, ?_⟩
        · obtain ⟨q, qs, hq⟩ := List.exists_cons_of_ne_nil hnil
          rw [hq] at h4 ⊢
          rw [List.getLast?_cons_cons]
          exact h4
        · rw [h6, hmod]

/-- C7 (amended): over a vault whose aliases are distinct and not empty, with `N` keys and a
page size `P` with `0 < P` (in particular with `0 < P < N`), a client that starts from the empty cursor and follows the
`Next` cursors receives `N / P + 1` pages whose items, taken together, are the keys of the
vault, each exactly once, in alias order. Every page before the final one holds `P` keys and
has `LastPage` false; the final page holds `N mod P` keys and has `LastPage` true. So the
page that holds the last key has `LastPage` true exactly when `N` is not a multiple of `P`;
when `N` is a multiple of `P` that page has `LastPage` false and is followed by one empty
page. -/
theorem pseudohsmListKeys_pagination (hsm : HSM) (keys : List PseudoXPub) (P fuel : Nat)
    (hnd : (keys.map PseudoXPub.Alias).Nodup) (hne : ∀ k ∈ keys, k.Alias ≠ "")
    (hP : 0 < P) (hf : keys.length / P + 1 ≤ fuel) :
    (((iteratePages (listingVault hsm keys) fuel ⟨(P : Int), ""⟩).map
        page.Items).flatten).Perm keys ∧
    (((iteratePages (listingVault hsm keys) fuel ⟨(P : Int), ""⟩).map
        page.Items).flatten).Pairwise (fun a b => a.Alias.data < b.Alias.data) ∧
    (iteratePages (listingVault hsm keys) fuel ⟨(P : Int), ""⟩).length =
        keys.length / P + 1 ∧
    (∀ p ∈ (iteratePages (listingVault hsm keys) fuel ⟨(P : Int), ""⟩).dropLast,
        p.LastPage = false ∧ p.Items.length = P) ∧
    (∃ last, (iteratePages (listingVault hsm keys) fuel ⟨(P : Int), ""⟩).getLast? =
        some last ∧ last.LastPage = true ∧ last.Items.length = keys.length % P) ∧
    (∀ p ∈ iteratePages (listingVault hsm keys) fuel ⟨(P : Int), ""⟩, ∀ k ∈ p.Items,
        (∀ j ∈ keys, j.Alias.data ≤ k.Alias.data) →
        (p.LastPage = true ↔ keys.length % P ≠ 0)) := by
  have hp : (sortedKeys keys).Perm keys := List.perm_insertionSort _ keys
  have hpw := sortedKeys_pairwise keys hnd
  have hlen : (sortedKeys keys).length = keys.length := hp.length_eq
  have hB : ∀ b ∈ sortedKeys keys, ("" : String).data < b.Alias.data := by
    intro b hb
    have hb2 : b.Alias ≠ "" := hne b (hp.subset hb)
    cases hd : b.Alias.data with
    | nil => exact absurd (String.ext hd) hb2
    | cons c cs => exact List.nil_lt_cons c cs
  have hspec := iteratePages_spec hsm keys P hP hpw fuel [] (sortedKeys keys) ""
    (by simp) (by simp) hB (by rw [hlen]; exact hf)
  rw [hlen] at hspec
  obtain ⟨h1, h2, h3, last, h4, h5, h6⟩ := hspec
  refine ⟨by rw [h1]; exact hp, by rw [h1]; exact hpw, h2, h3, ⟨last, h4, h5, h6⟩, ?_⟩
  intro p hpm k hk hmax
  have hsplit : iteratePages (listingVault hsm keys) fuel ⟨(P : Int), ""⟩ =
      (iteratePages (listingVault hsm keys) fuel ⟨(P : Int), ""⟩).dropLast ++ [last] :=
    (List.dropLast_append_getLast? last h4).symm
  rw [hsplit, List.mem_append] at hpm
  rcases hpm with hpm | hpm
  · have hfalse : p.LastPage = false := (h3 p hpm).1
    constructor
    · intro ht
      rw [hfalse] at ht
      exact absurd ht (by decide)
    · intro hmod
      exfalso
      have hlast : last.Items ≠ [] := by
        intro h
        rw [h] at h6
        exact hmod h6.symm
      obtain ⟨b, bs, hbs⟩ := List.exists_cons_of_ne_nil hlast
      have hflat := h1
      rw [hsplit, List.map_append, List.flatten_append] at hflat
      have hpw2 := hpw
      rw [← hflat, List.pairwise_append] at hpw2
      have hkmem : k ∈ (List.map page.Items
          (iteratePages (listingVault hsm keys) fuel ⟨(P : Int), ""⟩).dropLast).flatten :=
        List.mem_flatten.2 ⟨p.Items, List.mem_map.2 ⟨p, hpm, rfl⟩, hk⟩
      have hbmem : b ∈ (List.map page.Items [last]).flatten := by simp [hbs]
      have hlt := hpw2.2.2 k hkmem b hbmem
      have hbkeys : b ∈ keys := by
        apply hp.subset
        rw [← hflat]
        exact List.mem_append_right _ hbmem
      exact absurd hlt (not_lt_of_le (hmax b hbkeys))
  · rw [List.mem_singleton] at hpm
    subst hpm
    constructor
    · intro _ hmod
      rw [hmod] at h6
      have : p.Items = [] := List.length_eq_zero.1 h6
      rw [this] at hk
      exact absurd hk (List.not_mem_nil k)
    · intro _
      exact h5

/-- Witness of C7 (amended): the four sample keys listed with page size 3. -/
theorem pseudohsmListKeys_pagination_witness :
    (iteratePages (listingVault sampleHSM sampleKeys) 2 ⟨((3 : Nat) : Int), ""⟩).length =
        sampleKeys.length / 3 + 1 ∧
    ∃ last, (iteratePages (listingVault sampleHSM sampleKeys) 2
        ⟨((3 : Nat) : Int), ""⟩).getLast? = some last ∧
      last.LastPage = true ∧ last.Items.length = sampleKeys.length % 3 :=
  have h := pseudohsmListKeys_pagination sampleHSM sampleKeys 3 2 (by decide) (by decide)
    (by decide) (by decide)
  ⟨h.2.2.1, h.2.2.2.2.1⟩

/-- Witness of C8 on the sample vault: the default limit, an unclamped limit and a failing
listing. -/
theorem pseudohsmListKeys_limit_witness :
    pseudohsmListKeys sampleHSM ⟨0, "x"⟩ = (⟨[], true, ⟨0, "x"⟩⟩, none) ∧
    pseudohsmListKeys sampleHSM ⟨1000000, "x"⟩ = (⟨[], true, ⟨1000000, "x"⟩⟩, none) ∧
    pseudohsmListKeys sampleHSM ⟨5, "bad"⟩ =
      (⟨[], false, ⟨0, ""⟩⟩, some Err.ErrInvalidAfter) :=
  ⟨(pseudohsmListKeys_limit sampleHSM ⟨0, "x"⟩).2.1 rfl,
   (pseudohsmListKeys_limit sampleHSM ⟨1000000, "x"⟩).2.2.1 (by decide),
   (pseudohsmListKeys_limit sampleHSM ⟨5, "bad"⟩).2.2.2 Err.ErrInvalidAfter rfl⟩

/-- Witness of C10, with a `txbuilder.Sign` that consults its callback. Without `Auth` the
template is signed with the inline key and the inline callback answers with a signature and
no error. With `Auth` the callback answers what the vault answers: the response holds the
vault's error when the password is wrong, and the template when the password is right or
when the vault does not hold the key. -/
theorem pseudohsmSignTemplates_path_choice_witness :
    signOne askingCollab sampleHSM (Context.request 1) ⟨"", [7], ⟨[9]⟩, ⟨[1]⟩⟩ 7 0 =
      askingCollab.TxSign Context.background 7 [askingCollab.XPubOf ⟨[1]⟩] ""
        (inlineSignFn askingCollab ⟨[1]⟩) 0 ∧
    inlineSignFn askingCollab ⟨[1]⟩ Context.background ⟨[9]⟩ [[2]] [3] "" =
      (some [1, 2, 3], none) ∧
    signOne askingCollab sampleHSM (Context.request 1) ⟨"pw", [7], ⟨[1]⟩, ⟨[5]⟩⟩ 7 0 =
      askingCollab.TxSign (Context.request 1) 7 [⟨[1]⟩] "pw"
        (pseudohsmSignTemplate sampleHSM) 0 ∧
    pseudohsmSignTemplate sampleHSM (Context.request 1) ⟨[1]⟩ [[7]] [7] "no" =
      (none, some (Err.other 7)) ∧
    (pseudohsmSignTemplates askingCollab sampleHSM (Context.request 1)
        ⟨"", [7], ⟨[9]⟩, ⟨[1]⟩⟩ 0).1 = [RespItem.nil, RespItem.template 7] ∧
    (pseudohsmSignTemplates askingCollab sampleHSM (Context.request 1)
        ⟨"no", [7], ⟨[1]⟩, ⟨[5]⟩⟩ 0).1 =
      [RespItem.nil, RespItem.info (askingCollab.Format (Err.other 7))] ∧
    (pseudohsmSignTemplates askingCollab sampleHSM (Context.request 1)
        ⟨"pw", [7], ⟨[1]⟩, ⟨[5]⟩⟩ 0).1 = [RespItem.nil, RespItem.template 7] ∧
    (pseudohsmSignTemplates askingCollab sampleHSM (Context.request 1)
        ⟨"pw", [7], ⟨[2]⟩, ⟨[5]⟩⟩ 0).1 = [RespItem.nil, RespItem.template 7] :=
  ⟨((pseudohsmSignTemplates_path_choice askingCollab sampleHSM (Context.request 1)
      ⟨"", [7], ⟨[9]⟩, ⟨[1]⟩⟩).1 rfl).1 7 0,
   (((pseudohsmSignTemplates_path_choice askingCollab sampleHSM (Context.request 1)
      ⟨"", [7], ⟨[9]⟩, ⟨[1]⟩⟩).1 rfl).2.1 Context.background ⟨[9]⟩ [[2]] [3] "").1,
   ((pseudohsmSignTemplates_path_choice askingCollab sampleHSM (Context.request 1)
      ⟨"pw", [7], ⟨[1]⟩, ⟨[5]⟩⟩).2 (by decide)).1 7 0,
   ((pseudohsmSignTemplates_path_choice askingCollab sampleHSM (Context.request 1)
      ⟨"no", [7], ⟨[1]⟩, ⟨[5]⟩⟩).2 (by decide)).2.1 (Context.request 1) ⟨[1]⟩ [[7]] [7] "no",
   by decide, by decide, by decide, by decide⟩

end Bytom
